import Mathlib

/-!
Verification development for the bill-split backend
(src/backend/app/routers/bills.py).

The endpoint handlers are shallowly embedded as pure functions over an
explicit store state (`DB`).  Row lookups (`.eq(...)` filters of the row
store) become `List.find?` / `List.filter`; fallible handlers return
`Except Err`.  Monetary values, which the Python code holds as floats,
are modelled as exact rationals; `round(x, 2)` is modelled as rounding
half-up to cents (`round2`) — Python rounds ties to even, but no claim
here depends on tie behaviour at exact half-cents.  Randomly generated
identifiers (uuids, token characters) are taken as explicit parameters.
Strings are treated with ASCII semantics for lowercasing and the word
character class of the slug regexes.
-/

namespace BillSplit

/-- Error taxonomy of the handlers: 404, 403, 400, 500 respectively. -/
inductive Err where
  | notFound
  | forbidden
  | badRequest
  | serverError
deriving DecidableEq

/-- A row of the bills table. -/
structure Bill where
  id : String
  creator_token : String
  share_token : String
  status : String
  image_url : Option String := none
  subtotal : Option ℚ := none
  tax : Option ℚ := none
  tip : Option ℚ := none
  venmo_handle : Option String := none
  zelle_handle : Option String := none
  cashapp_handle : Option String := none

/-- A row of the bill_items table. -/
structure Item where
  id : String
  bill_id : String
  name : String
  price : ℚ

/-- A row of the participants table.  `name` is null until submission. -/
structure Participant where
  id : String
  bill_id : String
  participant_token : String
  name : Option String := none
  status : String
  is_creator : Bool := false

/-- A row of the item_claims table.  The generated uuid primary key is
never read anywhere in the source, so it is not modelled. -/
structure Claim where
  item_id : String
  participant_id : String

/-- The row store: the four tables the handlers touch. -/
structure DB where
  bills : List Bill
  items : List Item
  participants : List Participant
  claims : List Claim

/-- Python truthiness of an optional string: `None` and `""` are falsy. -/
def pyTruthy : Option String → Bool
  | none => false
  | some s => s != ""

/-- Rounding to cents, `round(x, 2)` (ties half-up; see the file comment). -/
def round2 (q : ℚ) : ℚ := (⌊q * 100 + 1 / 2⌋ : ℚ) / 100

/-- First row of `bills` matching the share token. -/
def lookupBillByShare (db : DB) (tok : String) : Option Bill :=
  db.bills.find? (fun b => b.share_token == tok)

/-- First row of `bills` matching the creator token. -/
def lookupBillByCreator (db : DB) (tok : String) : Option Bill :=
  db.bills.find? (fun b => b.creator_token == tok)

/-- participants row by participant_token and bill_id, first row. -/
def lookupParticipant (db : DB) (billId ptok : String) : Option Participant :=
  db.participants.find? (fun p => p.participant_token == ptok && p.bill_id == billId)

/-- Rows of `bill_items` with the given bill id. -/
def billItems (db : DB) (billId : String) : List Item :=
  db.items.filter (fun i => i.bill_id == billId)

/-- Rows of `participants` with the given bill id and status done. -/
def doneParticipants (db : DB) (billId : String) : List Participant :=
  db.participants.filter (fun p => p.bill_id == billId && p.status == "done")

/-- Number of claim rows naming the given item id. -/
def claimCount (claims : List Claim) (itemId : String) : ℕ :=
  (claims.filter (fun c => c.item_id == itemId)).length

/-- Lookup in `item_map` (built from the bill's items, keyed by id). -/
def findItem (items : List Item) (itemId : String) : Option Item :=
  items.find? (fun it => it.id == itemId)

/-- One iteration of the totals loop: `item["price"] / max(1, item_claim_count)`
when the claimed id is in `item_map`, otherwise nothing is added. -/
def itemContribution (claims : List Claim) (items : List Item) (itemId : String) : ℚ :=
  match findItem items itemId with
  | none => 0
  | some it => it.price / ((max 1 (claimCount claims itemId) : ℕ) : ℚ)

/-- Claim rows of one participant, in store order. -/
def participantClaims (claims : List Claim) (pid : String) : List Claim :=
  claims.filter (fun c => c.participant_id == pid)

/-- The `items_total` accumulation of the dashboard and final-results loops. -/
def itemsTotal (claims : List Claim) (items : List Item) (pid : String) : ℚ :=
  ((participantClaims claims pid).map (fun c => itemContribution claims items c.item_id)).sum

/-- The part of a participant's `items_total` attributable to one item:
the sum of the contributions of that participant's claims on that item. -/
def allocFor (claims : List Claim) (items : List Item) (pid itemId : String) : ℚ :=
  ((claims.filter (fun c => c.participant_id == pid && c.item_id == itemId)).map
      (fun _ => itemContribution claims items itemId)).sum

/-- Number of claim rows for one (participant, item) pair. -/
def countPair (claims : List Claim) (pid itemId : String) : ℕ :=
  (claims.filter (fun c => c.participant_id == pid && c.item_id == itemId)).length

/-- One entry of the `splits` list of the final-results response. -/
structure FinalSplit where
  name : String
  items_total : ℚ
  tax_share : ℚ
  tip_share : ℚ
  final_total : ℚ

/-- The final-results response body. -/
structure FinalResultsResponse where
  status : String
  subtotal : Option ℚ
  tax : Option ℚ
  tip : Option ℚ
  venmo_handle : Option String
  zelle_handle : Option String
  cashapp_handle : Option String
  splits : List FinalSplit

/-- ASCII lowercasing of one character (`str.lower()` on ASCII input). -/
def asciiLower (c : Char) : Char :=
  if 65 ≤ c.toNat ∧ c.toNat ≤ 90 then Char.ofNat (c.toNat + 32) else c

/-- Sort key of the final splits: `x.name.lower()`. -/
def lowerChars (s : String) : List Char := s.data.map asciiLower

/-- Code-point comparison of strings, as Python compares `str` values. -/
def leChars : List Char → List Char → Bool
  | [], _ => true
  | _ :: _, [] => false
  | a :: as, b :: bs => if a = b then leChars as bs else decide (a < b)

/-- Ordering used by the final sort of the splits, lowercased names. -/
def splitLE (a b : FinalSplit) : Bool := leChars (lowerChars a.name) (lowerChars b.name)

/-- Stable insertion into an already sorted list. -/
def insertSplit (a : FinalSplit) : List FinalSplit → List FinalSplit
  | [] => [a]
  | b :: rest => if splitLE a b then a :: b :: rest else b :: insertSplit a rest

/-- Stable sort of the splits by lowercased name (Python list.sort is stable). -/
def sortSplits : List FinalSplit → List FinalSplit
  | [] => []
  | a :: rest => insertSplit a (sortSplits rest)

/-- Body of the final-results loop for one fetched participant: skipped when
the name is falsy, otherwise one split with output rounding. -/
def mkSplit (claims : List Claim) (items : List Item) (taxPP tipPP : ℚ)
    (p : Participant) : Option FinalSplit :=
  if pyTruthy p.name then
    some { name := p.name.getD ""
           items_total := round2 (itemsTotal claims items p.id)
           tax_share := round2 taxPP
           tip_share := round2 tipPP
           final_total := round2 (itemsTotal claims items p.id + taxPP + tipPP) }
  else none

/-- Handler of GET bills/share/st/final (`get_final_results`). -/
def get_final_results (db : DB) (share_token : String) : Except Err FinalResultsResponse :=
  match lookupBillByShare db share_token with
  | none => .error .notFound
  | some bill =>
    if bill.status ≠ "complete" then .error .forbidden
    else
      let items := billItems db bill.id
      let participants := doneParticipants db bill.id
      let n := participants.length
      let taxPP := bill.tax.getD 0 / ((max 1 n : ℕ) : ℚ)
      let tipPP := bill.tip.getD 0 / ((max 1 n : ℕ) : ℚ)
      .ok { status := bill.status
            subtotal := bill.subtotal
            tax := bill.tax
            tip := bill.tip
            venmo_handle := bill.venmo_handle
            zelle_handle := bill.zelle_handle
            cashapp_handle := bill.cashapp_handle
            splits := sortSplits (participants.filterMap (mkSplit db.claims items taxPP tipPP)) }

/-- Handler of POST bills/share/st/participant/pt/claims (`update_claims`): full
replacement of the participant's claims by the posted item id list.
Returns the updated store and the reported `claimed_count`. -/
def update_claims (db : DB) (share_token participant_token : String)
    (item_ids : List String) : Except Err (DB × ℕ) :=
  match lookupBillByShare db share_token with
  | none => .error .notFound
  | some bill =>
    match lookupParticipant db bill.id participant_token with
    | none => .error .notFound
    | some p =>
      if p.status == "done" then .error .forbidden
      else
        let cleared := db.claims.filter (fun c => c.participant_id != p.id)
        let added := item_ids.map (fun iid => { item_id := iid, participant_id := p.id : Claim })
        .ok ({ db with claims := cleared ++ added }, item_ids.length)

/-- Store state after the claims endpoint ran: a failed request raises
before any write, so it leaves the store unchanged. -/
def update_claims_state (db : DB) (st pt : String) (ids : List String) : DB :=
  match update_claims db st pt ids with
  | .ok (db2, _) => db2
  | .error _ => db

/-- Handler of DELETE bills/creator/ct/items/iid (`delete_item`) as written in
src/: ownership check, then deletion of the bill_items row only. -/
def delete_item (db : DB) (creator_token item_id : String) : Except Err DB :=
  match lookupBillByCreator db creator_token with
  | none => .error .notFound
  | some bill =>
    if (db.items.filter (fun i => i.id == item_id && i.bill_id == bill.id)).isEmpty then
      .error .notFound
    else
      .ok { db with items := db.items.filter (fun i => i.id != item_id) }

/-- Modelled from the spec: the cascade that removes every claim referencing
a deleted item.  In this repository the cascade is carried by the database
schema (a foreign key with ON DELETE CASCADE on item_claims.item_id), which
is not part of src/ — `delete_item` itself issues only the bill_items
deletion.  Spec: deleteItem "cascades claim deletion for that item"; item
"deletion also removes all claims referencing it (cascade)". -/
def cascade_claims (db : DB) (item_id : String) : DB :=
  { db with claims := db.claims.filter (fun c => c.item_id != item_id) }

/-- The item-deletion endpoint together with the store-level cascade. -/
def delete_item_cascade (db : DB) (creator_token item_id : String) : Except Err DB :=
  (delete_item db creator_token item_id).map (fun db2 => cascade_claims db2 item_id)

/-- Handler of POST bills/creator/ct/confirm (`confirm_bill`): sets the status to
active and inserts the creator's participant row.  The generated uuid and
participant token are passed in explicitly. -/
def confirm_bill (db : DB) (creator_token newId newToken : String) : Except Err DB :=
  match lookupBillByCreator db creator_token with
  | none => .error .notFound
  | some bill =>
    let bills2 := db.bills.map (fun b =>
      if b.id == bill.id then { b with status := "active" } else b)
    let creatorP : Participant :=
      { id := newId, bill_id := bill.id, participant_token := newToken,
        name := none, status := "selecting", is_creator := true }
    .ok { db with bills := bills2, participants := db.participants ++ [creatorP] }

/-- Payment handles posted to the completion endpoint. -/
structure PaymentHandles where
  venmo_handle : Option String := none
  zelle_handle : Option String := none
  cashapp_handle : Option String := none

/-- Handler of POST bills/creator/ct/complete (`complete_bill`): sets the status to
complete and stores the payment handles. -/
def complete_bill (db : DB) (creator_token : String) (h : PaymentHandles) : Except Err DB :=
  match lookupBillByCreator db creator_token with
  | none => .error .notFound
  | some bill =>
    .ok { db with bills := db.bills.map (fun b =>
      if b.id == bill.id then
        { b with status := "complete"
                 venmo_handle := h.venmo_handle
                 zelle_handle := h.zelle_handle
                 cashapp_handle := h.cashapp_handle }
      else b) }

/-- One item of the share view, with the names of its claimants. -/
structure ItemWithClaims where
  id : String
  name : String
  price : ℚ
  claimed_by : List String

/-- One participant entry of the share view. -/
structure ParticipantInfo where
  id : String
  name : Option String
  status : String

/-- The share view response body. -/
structure ParticipantBillResponse where
  id : String
  share_token : String
  status : String
  subtotal : Option ℚ
  tax : Option ℚ
  tip : Option ℚ
  items : List ItemWithClaims
  participants : List ParticipantInfo

/-- Handler of GET bills/share/st (`get_bill_by_share_token`). -/
def get_bill_by_share_token (db : DB) (share_token : String) :
    Except Err ParticipantBillResponse :=
  match lookupBillByShare db share_token with
  | none => .error .notFound
  | some bill =>
    if bill.status == "editing" then .error .forbidden
    else
      let billParticipants := db.participants.filter (fun p => p.bill_id == bill.id)
      .ok { id := bill.id
            share_token := bill.share_token
            status := bill.status
            subtotal := bill.subtotal
            tax := bill.tax
            tip := bill.tip
            items := (billItems db bill.id).map (fun it =>
              { id := it.id, name := it.name, price := it.price,
                claimed_by := (db.claims.filter (fun c => c.item_id == it.id)).filterMap
                  (fun c =>
                    match billParticipants.find? (fun p => p.id == c.participant_id) with
                    | none => none
                    | some p => if pyTruthy p.name then p.name else none) })
            participants := billParticipants.map (fun p =>
              { id := p.id, name := p.name, status := p.status }) }

/-- Membership of a character in the class matched by the backslash-w regex
class (ASCII fragment): letters, digits, underscore. -/
def isWordChar (c : Char) : Bool := c.isAlphanum || c == '_'

/-- Characters collapsed into hyphens by the slug regex: whitespace,
underscore, hyphen. -/
def isSepChar (c : Char) : Bool := c.isWhitespace || c == '_' || c == '-'

/-- Leading and trailing whitespace removal (`str.strip()`). -/
def pyStrip (l : List Char) : List Char :=
  ((l.dropWhile Char.isWhitespace).reverse.dropWhile Char.isWhitespace).reverse

/-- Replacement of every run of separator characters by a single hyphen.
The boolean records whether the previous character belonged to a run. -/
def collapseSeps : Bool → List Char → List Char
  | _, [] => []
  | prevSep, c :: rest =>
    if isSepChar c then
      if prevSep then collapseSeps true rest else '-' :: collapseSeps true rest
    else c :: collapseSeps false rest

/-- Removal of leading and trailing hyphens. -/
def trimHyphens (l : List Char) : List Char :=
  ((l.dropWhile (fun c => c == '-')).reverse.dropWhile (fun c => c == '-')).reverse

/-- The `slugify` helper: lowercase and strip, drop characters outside
word/space/hyphen, collapse separator runs to single hyphens, trim hyphens,
truncate to 20 characters. -/
def slugify (s : String) : String :=
  let a := pyStrip (s.data.map asciiLower)
  let b := a.filter (fun c => isWordChar c || c.isWhitespace || c == '-')
  let d := trimHyphens (collapseSeps false b)
  String.mk (d.take 20)

/-- Base slug chosen in `parse_bill`: the slugified venue, or the literal
fallback when that is empty (Python `slugify(venue) or "bill"`). -/
def slugBase (venue : String) : String :=
  if slugify venue = "" then "bill" else slugify venue

/-- Character set of `generate_short_id`: lowercase letters and digits. -/
def shortIdChars : List Char := "abcdefghijklmnopqrstuvwxyz0123456789".data

/-- The `generate_short_id` helper; the random draws of `secrets.choice`
are modelled as an explicit list of indices into the character set. -/
def generate_short_id (picks : List (Fin 36)) : String :=
  String.mk (picks.map (fun i => shortIdChars.getD i.val 'a'))

/-- New share token assembled in `parse_bill`: base slug, hyphen, suffix. -/
def newShareToken (venue : String) (picks : List (Fin 36)) : String :=
  slugBase venue ++ "-" ++ generate_short_id picks

/-- Number of participants of the bill with status done and a non-null
name: the eligibility count used by the specification of the split
calculator. -/
def eligibleCount (db : DB) (billId : String) : ℕ :=
  (db.participants.filter
    (fun p => p.bill_id == billId && p.status == "done" && p.name.isSome)).length

/-! ## Helper lemmas -/

theorem length_mk_eq (l : List Char) : (String.mk l).length = l.length := rfl

theorem slugify_length_le (s : String) : (slugify s).length ≤ 20 := by
  unfold slugify
  rw [length_mk_eq]
  exact List.length_take_le 20 _

theorem slugBase_length_le (v : String) : (slugBase v).length ≤ 20 := by
  unfold slugBase
  split
  · decide
  · exact slugify_length_le v

theorem shortIdChars_lower_or_digit :
    ∀ c ∈ shortIdChars, c.isLower = true ∨ c.isDigit = true := by decide

theorem mem_insertSplit (a x : FinalSplit) (l : List FinalSplit) :
    x ∈ insertSplit a l ↔ x = a ∨ x ∈ l := by
  induction l with
  | nil => simp [insertSplit]
  | cons b rest ih =>
    by_cases h : splitLE a b
    · simp [insertSplit, h, ih]
    · simp only [insertSplit, h]
      simp [ih]
      tauto

theorem mem_sortSplits (x : FinalSplit) (l : List FinalSplit) :
    x ∈ sortSplits l ↔ x ∈ l := by
  induction l with
  | nil => simp [sortSplits]
  | cons b rest ih => simp [sortSplits, mem_insertSplit, ih]

/-! ## Claim C9: slug generation -/

/-- C9.  Slug generation normalizes the venue name (lowercase, strip
characters outside word/space/hyphen, collapse whitespace/underscore/hyphen
runs to one hyphen, trim hyphens, truncate to 20 characters, fall back to
"bill" when empty) and appends a hyphen and a 4-character random
lowercase-alphanumeric suffix.  In particular the venue of the spec example
yields base slug joes-pizza-grill, and an empty or all-punctuation venue
yields base slug bill. -/
theorem C9_slug_generation (v : String) (picks : List (Fin 36))
    (hp : picks.length = 4) :
    slugBase "Joe\x27s Pizza & Grill!!" = "joes-pizza-grill"
    ∧ slugBase "" = "bill"
    ∧ slugBase "!!! ???" = "bill"
    ∧ (slugBase v).length ≤ 20
    ∧ newShareToken v picks = slugBase v ++ "-" ++ generate_short_id picks
    ∧ (generate_short_id picks).length = 4
    ∧ (∀ c ∈ (generate_short_id picks).data,
        c.isLower = true ∨ c.isDigit = true) := by
  refine ⟨by decide, by decide, by decide, slugBase_length_le v, rfl, ?_, ?_⟩
  · rw [generate_short_id, length_mk_eq, List.length_map, hp]
  · intro c hc
    rw [generate_short_id] at hc
    simp only [String.mk] at hc
    rw [List.mem_map] at hc
    obtain ⟨i, _, hi⟩ := hc
    have hlt : i.val < shortIdChars.length := by
      have := i.isLt
      have hlen : shortIdChars.length = 36 := by decide
      omega
    rw [List.getD_eq_getElem shortIdChars 'a' hlt] at hi
    exact shortIdChars_lower_or_digit c (hi ▸ List.getElem_mem hlt)

/-- C9 witness: the theorem applied at the spec example venue and a
concrete list of four suffix draws. -/
theorem C9_slug_generation_witness :
    ([(0 : Fin 36), 1, 2, 35] : List (Fin 36)).length = 4
    ∧ (slugBase "Joe\x27s Pizza & Grill!!" = "joes-pizza-grill"
      ∧ slugBase "" = "bill"
      ∧ slugBase "!!! ???" = "bill"
      ∧ (slugBase "Joe\x27s Pizza & Grill!!").length ≤ 20
      ∧ newShareToken "Joe\x27s Pizza & Grill!!" [0, 1, 2, 35]
          = slugBase "Joe\x27s Pizza & Grill!!" ++ "-" ++ generate_short_id [0, 1, 2, 35]
      ∧ (generate_short_id [0, 1, 2, 35]).length = 4
      ∧ (∀ c ∈ (generate_short_id ([0, 1, 2, 35] : List (Fin 36))).data,
          c.isLower = true ∨ c.isDigit = true)) :=
  ⟨by decide, C9_slug_generation "Joe\x27s Pizza & Grill!!" [0, 1, 2, 35] (by decide)⟩

/-! ## Claim C7: share-token access gating -/

/-- C7.  Share-token access to a bill always fails with Forbidden when the
bill's status is editing, and succeeds (returns the bill view) for every
bill in active or complete status reachable by a valid share token. -/
theorem C7_share_access_gating (db : DB) (st : String) (bill : Bill)
    (hb : lookupBillByShare db st = some bill) :
    (bill.status = "editing" → get_bill_by_share_token db st = .error .forbidden)
    ∧ (bill.status = "active" ∨ bill.status = "complete" →
        ∃ r, get_bill_by_share_token db st = .ok r) := by
  constructor
  · intro h
    simp [get_bill_by_share_token, hb, h]
  · intro h
    have hne : (bill.status == "editing") = false := by
      rcases h with h | h <;> simp [h]
    simp only [get_bill_by_share_token, hb, hne]
    exact ⟨_, rfl⟩

/-- Store used by the C7 witness: one bill in active status. -/
def c7db : DB :=
  { bills := [{ id := "b1", creator_token := "ct", share_token := "s1", status := "active" }],
    items := [], participants := [], claims := [] }

/-- C7 witness: the theorem applied to a one-bill store whose bill is
active, discharging the lookup hypothesis by evaluation. -/
theorem C7_share_access_gating_witness :
    lookupBillByShare c7db "s1"
      = some { id := "b1", creator_token := "ct", share_token := "s1", status := "active" }
    ∧ (((Bill.mk "b1" "ct" "s1" "active" none none none none none none none).status = "editing" →
          get_bill_by_share_token c7db "s1" = .error .forbidden)
      ∧ ((Bill.mk "b1" "ct" "s1" "active" none none none none none none none).status = "active"
          ∨ (Bill.mk "b1" "ct" "s1" "active" none none none none none none none).status = "complete" →
          ∃ r, get_bill_by_share_token c7db "s1" = .ok r)) :=
  ⟨rfl, C7_share_access_gating c7db "s1" _ rfl⟩

/-! ## Claim C6: claims of a done participant are locked -/

/-- C6.  For every participant whose status is done, any attempt to alter
that participant's claims through the participant-facing claim endpoint
fails with Forbidden, and the participant's claim set is left unchanged by
the failed attempt. -/
theorem C6_done_participant_forbidden (db : DB) (st pt : String) (ids : List String)
    (bill : Bill) (p : Participant)
    (hb : lookupBillByShare db st = some bill)
    (hp : lookupParticipant db bill.id pt = some p)
    (hdone : p.status = "done") :
    update_claims db st pt ids = .error .forbidden
    ∧ update_claims_state db st pt ids = db := by
  have h1 : update_claims db st pt ids = .error .forbidden := by
    simp [update_claims, hb, hp, hdone]
  exact ⟨h1, by simp [update_claims_state, h1]⟩

/-- Store used by the C6 witness: an active bill with one done participant
holding one claim. -/
def c6db : DB :=
  { bills := [{ id := "b1", creator_token := "ct", share_token := "s1", status := "active" }],
    items := [{ id := "i1", bill_id := "b1", name := "Pizza", price := 20 }],
    participants := [{ id := "p1", bill_id := "b1", participant_token := "pt",
                       name := some "a", status := "done" }],
    claims := [{ item_id := "i1", participant_id := "p1" }] }

/-- C6 witness: the theorem applied to the concrete store, all lookups
discharged by evaluation; the claim set of the store is untouched. -/
theorem C6_done_participant_forbidden_witness :
    lookupBillByShare c6db "s1"
      = some { id := "b1", creator_token := "ct", share_token := "s1", status := "active" }
    ∧ (update_claims c6db "s1" "pt" ["i1", "x"] = .error .forbidden
      ∧ update_claims_state c6db "s1" "pt" ["i1", "x"] = c6db) :=
  ⟨rfl, C6_done_participant_forbidden c6db "s1" "pt" ["i1", "x"] _
    ⟨"p1", "b1", "pt", some "a", "done", false⟩ rfl rfl rfl⟩

/-! ## Claim C5: lifecycle transitions

Neither `confirm_bill` nor `complete_bill` inspects the current status of
the bill before writing the new one, so the claimed state machine is not
enforced: a bill in editing status moves directly to complete when the
completion endpoint is called, and a completed bill moves back to active
when the confirmation endpoint is called again. -/

/-- Store used by the C5 counterexample: one bill still in editing status. -/
def c5db : DB :=
  { bills := [{ id := "b1", creator_token := "ct", share_token := "s1", status := "editing" }],
    items := [], participants := [], claims := [] }

/-- Bill store after completing the editing bill of `c5db` directly. -/
def c5dbAfter : DB :=
  { bills := [{ id := "b1", creator_token := "ct", share_token := "s1", status := "complete" }],
    items := [], participants := [], claims := [] }

/-- Bill store after then confirming the completed bill of `c5dbAfter`. -/
def c5dbBack : DB :=
  { bills := [{ id := "b1", creator_token := "ct", share_token := "s1", status := "active" }],
    items := [],
    participants := [{ id := "p9", bill_id := "b1", participant_token := "tk",
                       name := none, status := "selecting", is_creator := true }],
    claims := [] }

/-- C5 counterexample.  The claim says no transition skips a state and no
backward transition exists; the code refutes both on a concrete run: the
completion endpoint moves an editing bill directly to complete (skipping
active), and the confirmation endpoint then moves the complete bill back
to active. -/
theorem C5_lifecycle_counterexample :
    c5db.bills.map Bill.status = ["editing"]
    ∧ complete_bill c5db "ct" {} = .ok c5dbAfter
    ∧ c5dbAfter.bills.map Bill.status = ["complete"]
    ∧ confirm_bill c5dbAfter "ct" "p9" "tk" = .ok c5dbBack
    ∧ c5dbBack.bills.map Bill.status = ["active"] :=
  ⟨rfl, rfl, rfl, rfl, rfl⟩

/-- C5 as amended.  The status writes are unconditional: whenever the
creator token matches a bill, `complete_bill` succeeds and leaves that bill
in complete status and `confirm_bill` succeeds and leaves it in active
status, regardless of the bill's previous status.  The documented chain
editing to active to complete therefore holds only when the endpoints are
invoked in the intended order; nothing prevents skipping or going back. -/
theorem C5_lifecycle_amended (db : DB) (ctok newId newToken : String)
    (hnd : PaymentHandles) (bill : Bill)
    (hb : lookupBillByCreator db ctok = some bill) :
    (∃ db2, complete_bill db ctok hnd = .ok db2
      ∧ ∀ b ∈ db2.bills, b.id = bill.id → b.status = "complete")
    ∧ (∃ db2, confirm_bill db ctok newId newToken = .ok db2
      ∧ ∀ b ∈ db2.bills, b.id = bill.id → b.status = "active") := by
  constructor
  · have hcomp : complete_bill db ctok hnd = .ok
        { db with bills := db.bills.map (fun b =>
            if b.id == bill.id then
              { b with status := "complete"
                       venmo_handle := hnd.venmo_handle
                       zelle_handle := hnd.zelle_handle
                       cashapp_handle := hnd.cashapp_handle }
            else b) } := by
      simp only [complete_bill, hb]
    refine ⟨_, hcomp, ?_⟩
    intro b hbmem hid
    rw [List.mem_map] at hbmem
    obtain ⟨a, _, ha⟩ := hbmem
    by_cases hcase : (a.id == bill.id) = true
    · rw [if_pos hcase] at ha
      rw [← ha]
    · rw [if_neg (by simp [hcase])] at ha
      subst ha
      rw [hid] at hcase
      simp at hcase
  · have hconf : confirm_bill db ctok newId newToken = .ok
        { db with
          bills := db.bills.map (fun b =>
            if b.id == bill.id then { b with status := "active" } else b)
          participants := db.participants ++
            [{ id := newId, bill_id := bill.id, participant_token := newToken,
               name := none, status := "selecting", is_creator := true }] } := by
      simp only [confirm_bill, hb]
    refine ⟨_, hconf, ?_⟩
    intro b hbmem hid
    rw [List.mem_map] at hbmem
    obtain ⟨a, _, ha⟩ := hbmem
    by_cases hcase : (a.id == bill.id) = true
    · rw [if_pos hcase] at ha
      rw [← ha]
    · rw [if_neg (by simp [hcase])] at ha
      subst ha
      rw [hid] at hcase
      simp at hcase

/-- C5 amended witness: the amended theorem applied to the concrete
editing-status store, the lookup hypothesis discharged by evaluation. -/
theorem C5_lifecycle_amended_witness :
    lookupBillByCreator c5db "ct"
      = some { id := "b1", creator_token := "ct", share_token := "s1", status := "editing" }
    ∧ ((∃ db2, complete_bill c5db "ct" {} = .ok db2
        ∧ ∀ b ∈ db2.bills, b.id = "b1" → b.status = "complete")
      ∧ (∃ db2, confirm_bill c5db "ct" "p9" "tk" = .ok db2
        ∧ ∀ b ∈ db2.bills, b.id = "b1" → b.status = "active")) :=
  ⟨rfl, C5_lifecycle_amended c5db "ct" "p9" "tk" {} _ rfl⟩

/-! ## Claim C8: idempotence of the claims replacement -/

/-- C8.  replaceClaims is idempotent: a successful claims replacement run
again on its own result store, with the same item id collection, succeeds
and returns exactly the same store and count.  (A failed first call cannot
arise here: success already implies the participant was not done.) -/
theorem C8_replace_claims_idempotent (db : DB) (st pt : String) (ids : List String)
    (db1 : DB) (n : ℕ)
    (h1 : update_claims db st pt ids = .ok (db1, n)) :
    update_claims db1 st pt ids = .ok (db1, n) := by
  cases hb : lookupBillByShare db st with
  | none => simp [update_claims, hb] at h1
  | some bill =>
    cases hp : lookupParticipant db bill.id pt with
    | none => simp [update_claims, hb, hp] at h1
    | some p =>
      by_cases hd : (p.status == "done") = true
      · simp [update_claims, hb, hp, hd] at h1
      · simp only [update_claims, hb, hp, hd, if_false, Bool.false_eq_true,
          Except.ok.injEq, Prod.mk.injEq] at h1
        obtain ⟨hdb1, hn⟩ := h1
        subst hn
        have hbills : db1.bills = db.bills := by rw [← hdb1]
        have hparts : db1.participants = db.participants := by rw [← hdb1]
        have hcl : db1.claims
            = db.claims.filter (fun c => c.participant_id != p.id)
              ++ ids.map (fun iid => { item_id := iid, participant_id := p.id : Claim }) := by
          rw [← hdb1]
        have hb1 : lookupBillByShare db1 st = some bill := by
          rw [lookupBillByShare] at hb ⊢
          rw [hbills]
          exact hb
        have hp1 : lookupParticipant db1 bill.id pt = some p := by
          rw [lookupParticipant] at hp ⊢
          rw [hparts]
          exact hp
        have hmap : (ids.map (fun iid =>
              { item_id := iid, participant_id := p.id : Claim })).filter
            (fun c => c.participant_id != p.id) = [] := by
          rw [List.filter_map]
          simp
        have hff : (db.claims.filter (fun c => c.participant_id != p.id)).filter
              (fun c => c.participant_id != p.id)
            = db.claims.filter (fun c => c.participant_id != p.id) := by
          rw [List.filter_filter]
          exact List.filter_congr (fun c _ => Bool.and_self _)
        have hfix : db1.claims.filter (fun c => c.participant_id != p.id)
            ++ ids.map (fun iid => { item_id := iid, participant_id := p.id : Claim })
            = db1.claims := by
          conv_lhs => rw [hcl]
          rw [List.filter_append, hff, hmap, List.append_nil, ← hcl]
        simp only [update_claims, hb1, hp1, hd, if_false, Bool.false_eq_true, hfix]

/-- Store used by the C8 witness: an active bill with one selecting
participant and no claims. -/
def c8db : DB :=
  { bills := [{ id := "b1", creator_token := "ct", share_token := "s1", status := "active" }],
    items := [],
    participants := [{ id := "p1", bill_id := "b1", participant_token := "pt",
                       name := none, status := "selecting" }],
    claims := [] }

/-- Store after the witness participant claims item x once. -/
def c8db1 : DB := { c8db with claims := [{ item_id := "x", participant_id := "p1" }] }

/-- C8 witness: the theorem applied to a concrete first call, whose result
is evaluated; the second call returns the identical store and count. -/
theorem C8_replace_claims_idempotent_witness :
    update_claims c8db "s1" "pt" ["x"] = .ok (c8db1, 1)
    ∧ update_claims c8db1 "s1" "pt" ["x"] = .ok (c8db1, 1) :=
  ⟨rfl, C8_replace_claims_idempotent c8db "s1" "pt" ["x"] c8db1 1 rfl⟩

/-! ## Claim C4: at most one claim row per pair

The handler inserts one claim row per element of the posted list without
deduplication, so duplicate ids in the input produce duplicate rows for
the same (participant, item) pair. -/

/-- Store used by the C4 counterexample: an active bill with one selecting
participant. -/
def c4db : DB :=
  { bills := [{ id := "b1", creator_token := "ct", share_token := "s1", status := "active" }],
    items := [],
    participants := [{ id := "p1", bill_id := "b1", participant_token := "pt",
                       name := none, status := "selecting" }],
    claims := [] }

/-- Store after posting the duplicated list: two rows for the same pair. -/
def c4db1 : DB := { c4db with claims := [{ item_id := "x", participant_id := "p1" },
                                         { item_id := "x", participant_id := "p1" }] }

/-- C4 counterexample.  Posting the item id list with a duplicate succeeds
and leaves two claim rows for the (p1, x) pair, refuting the claim that
after any successful replaceClaims call at most one claim row per
(participant, item) pair exists. -/
theorem C4_pair_invariant_counterexample :
    update_claims c4db "s1" "pt" ["x", "x"] = .ok (c4db1, 2)
    ∧ countPair c4db1.claims "p1" "x" = 2
    ∧ 1 < countPair c4db1.claims "p1" "x" :=
  ⟨rfl, by decide, by decide⟩

/-- C4 as amended.  After a successful claims replacement the calling
participant's claim rows are exactly one row per element of the posted
list, duplicates included; hence the at-most-one-row-per-pair invariant
holds for that participant exactly when the posted list has no duplicate
ids (the handler does not deduplicate). -/
theorem C4_pair_invariant_amended (db : DB) (st pt : String) (ids : List String)
    (bill : Bill) (p : Participant) (db2 : DB) (n : ℕ)
    (hb : lookupBillByShare db st = some bill)
    (hp : lookupParticipant db bill.id pt = some p)
    (h : update_claims db st pt ids = .ok (db2, n)) :
    db2.claims.filter (fun c => c.participant_id == p.id)
      = ids.map (fun iid => { item_id := iid, participant_id := p.id : Claim })
    ∧ (ids.Nodup → ∀ iid, countPair db2.claims p.id iid ≤ 1) := by
  by_cases hd : (p.status == "done") = true
  · simp [update_claims, hb, hp, hd] at h
  · simp only [update_claims, hb, hp, hd, if_false, Bool.false_eq_true,
      Except.ok.injEq, Prod.mk.injEq] at h
    obtain ⟨hdb2, hn⟩ := h
    have hcl : db2.claims
        = db.claims.filter (fun c => c.participant_id != p.id)
          ++ ids.map (fun iid => { item_id := iid, participant_id := p.id : Claim }) := by
      rw [← hdb2]
    constructor
    · rw [hcl, List.filter_append]
      have h1 : (db.claims.filter (fun c => c.participant_id != p.id)).filter
          (fun c => c.participant_id == p.id) = [] := by
        rw [List.filter_filter]
        apply List.filter_eq_nil_iff.mpr
        intro c _
        by_cases hc : c.participant_id = p.id <;> simp [hc]
      have h2 : (ids.map (fun iid =>
            { item_id := iid, participant_id := p.id : Claim })).filter
          (fun c => c.participant_id == p.id)
          = ids.map (fun iid => { item_id := iid, participant_id := p.id : Claim }) := by
        rw [List.filter_map]
        congr 1
        apply List.filter_eq_self.mpr
        intro c _
        simp
      rw [h1, h2, List.nil_append]
    · intro hnd iid
      rw [countPair, hcl, List.filter_append, List.length_append]
      have h1 : (db.claims.filter (fun c => c.participant_id != p.id)).filter
          (fun c => c.participant_id == p.id && c.item_id == iid) = [] := by
        rw [List.filter_filter]
        apply List.filter_eq_nil_iff.mpr
        intro c _
        by_cases hc : c.participant_id = p.id <;> simp [hc]
      have h2 : (ids.map (fun iid2 =>
            { item_id := iid2, participant_id := p.id : Claim })).filter
          (fun c => c.participant_id == p.id && c.item_id == iid)
          = (ids.filter (fun iid2 => iid2 == iid)).map
              (fun iid2 => { item_id := iid2, participant_id := p.id : Claim }) := by
        rw [List.filter_map]
        congr 1
        apply List.filter_congr
        intro iid2 _
        simp
      rw [h1, h2]
      simp only [List.length_nil, List.length_map, Nat.zero_add]
      have := List.nodup_iff_count_le_one.mp hnd iid
      rw [List.count] at this
      calc (ids.filter (fun iid2 => iid2 == iid)).length
          = ids.countP (fun iid2 => iid2 == iid) := (List.countP_eq_length_filter _ _).symm
        _ ≤ 1 := this

/-- C4 amended witness: the amended theorem applied to the duplicated
input; the stored rows are exactly the two posted entries, and the
no-duplicates implication is vacuous there. -/
theorem C4_pair_invariant_amended_witness :
    update_claims c4db "s1" "pt" ["x", "x"] = .ok (c4db1, 2)
    ∧ (c4db1.claims.filter (fun c => c.participant_id == "p1")
        = (["x", "x"] : List String).map
            (fun iid => { item_id := iid, participant_id := "p1" : Claim })
      ∧ ((["x", "x"] : List String).Nodup →
          ∀ iid, countPair c4db1.claims "p1" iid ≤ 1)) :=
  ⟨rfl, C4_pair_invariant_amended c4db "s1" "pt" ["x", "x"] _
    ⟨"p1", "b1", "pt", none, "selecting", false⟩ c4db1 2 rfl rfl rfl⟩

/-! ## Claim C3: item deletion cascades to claims -/

theorem exceptMap_error {α β : Type} (f : α → β) (e : Err) :
    (Except.error e : Except Err α).map f = .error e := rfl

theorem exceptMap_ok {α β : Type} (f : α → β) (a : α) :
    (Except.ok a : Except Err α).map f = .ok (f a) := rfl

/-- C3.  Deleting an item from a bill also deletes every claim referencing
that item: after a successful deletion no claim row referencing the
deleted item remains (and the item itself is gone); the deletion fails
with NotFound if the item does not belong to the bill.  The cascade step
is the store-level one modelled from the spec (`cascade_claims`), since
the schema carrying it is not part of src/. -/
theorem C3_delete_item_cascade (db : DB) (ctok iid : String) (bill : Bill)
    (hb : lookupBillByCreator db ctok = some bill) :
    (db.items.filter (fun i => i.id == iid && i.bill_id == bill.id) = [] →
        delete_item_cascade db ctok iid = .error .notFound)
    ∧ (∀ db2, delete_item_cascade db ctok iid = .ok db2 →
        (∀ c ∈ db2.claims, c.item_id ≠ iid) ∧ (∀ it ∈ db2.items, it.id ≠ iid)) := by
  constructor
  · intro hempty
    simp [delete_item_cascade, delete_item, hb, hempty, exceptMap_error]
  · intro db2 h
    by_cases hempty :
        (db.items.filter (fun i => i.id == iid && i.bill_id == bill.id)).isEmpty = true
    · simp [delete_item_cascade, delete_item, hb, hempty, exceptMap_error] at h
    · simp only [delete_item_cascade, delete_item, hb, hempty, if_false, Bool.false_eq_true,
        exceptMap_ok, Except.ok.injEq] at h
      constructor
      · intro c hc
        rw [← h] at hc
        simp only [cascade_claims, List.mem_filter] at hc
        simpa using hc.2
      · intro it hit
        rw [← h] at hit
        simp only [cascade_claims, List.mem_filter] at hit
        simpa using hit.2

/-- Store used by the C3 witness: a bill with two items, one claim on
each. -/
def c3db : DB :=
  { bills := [{ id := "b1", creator_token := "ct", share_token := "s1", status := "editing" }],
    items := [{ id := "i1", bill_id := "b1", name := "Pizza", price := 20 },
              { id := "i2", bill_id := "b1", name := "Salad", price := 10 }],
    participants := [],
    claims := [{ item_id := "i1", participant_id := "p1" },
               { item_id := "i2", participant_id := "p1" }] }

/-- C3 witness: the theorem applied to the concrete store; deleting the
first item removes its row and its claim and keeps the other item's claim. -/
theorem C3_delete_item_cascade_witness :
    lookupBillByCreator c3db "ct"
      = some { id := "b1", creator_token := "ct", share_token := "s1", status := "editing" }
    ∧ delete_item_cascade c3db "ct" "i1"
      = .ok { bills := c3db.bills,
              items := [{ id := "i2", bill_id := "b1", name := "Salad", price := 10 }],
              participants := [],
              claims := [{ item_id := "i2", participant_id := "p1" }] }
    ∧ ((c3db.items.filter (fun i => i.id == "i1"
          && i.bill_id == (Bill.mk "b1" "ct" "s1" "editing"
            none none none none none none none).id) = [] →
          delete_item_cascade c3db "ct" "i1" = .error .notFound)
      ∧ (∀ db2, delete_item_cascade c3db "ct" "i1" = .ok db2 →
          (∀ c ∈ db2.claims, c.item_id ≠ "i1") ∧ (∀ it ∈ db2.items, it.id ≠ "i1"))) :=
  ⟨rfl, rfl, C3_delete_item_cascade c3db "ct" "i1" _ rfl⟩

/-! ## Claim C10: unvalidated item ids in the claims endpoint -/

theorem itemContribution_of_not_found (claims : List Claim) (items : List Item)
    (iid : String) (h : findItem items iid = none) :
    itemContribution claims items iid = 0 := by
  rw [itemContribution, h]

theorem claimCount_filter_keep (claims : List Claim) (items : List Item) (iid : String)
    (h : findItem items iid ≠ none) :
    claimCount (claims.filter (fun c => items.any (fun it => it.id == c.item_id))) iid
      = claimCount claims iid := by
  obtain ⟨it, hit⟩ := Option.ne_none_iff_exists.mp h
  have hmem : it ∈ items := List.mem_of_find?_eq_some hit.symm
  have hid0 := List.find?_some hit.symm
  have hid : (it.id == iid) = true := by simpa using hid0
  rw [claimCount, claimCount, List.filter_filter]
  congr 1
  apply List.filter_congr
  intro c _
  by_cases hc : c.item_id = iid
  · have hany : items.any (fun x => x.id == c.item_id) = true :=
      List.any_eq_true.mpr ⟨it, hmem, by rw [hc]; exact hid⟩
    rw [hany, Bool.and_true]
  · simp [hc]

theorem itemContribution_filter_keep (claims : List Claim) (items : List Item)
    (iid : String) :
    itemContribution (claims.filter (fun c => items.any (fun it => it.id == c.item_id)))
        items iid
      = itemContribution claims items iid := by
  cases hfi : findItem items iid with
  | none => rw [itemContribution, itemContribution, hfi]
  | some it =>
    rw [itemContribution, itemContribution, hfi]
    rw [claimCount_filter_keep claims items iid (by rw [hfi]; exact fun hx => Option.noConfusion hx)]

theorem sum_map_filter_eq {α : Type} (l : List α) (f : α → ℚ) (q : α → Bool)
    (h : ∀ x ∈ l, q x = false → f x = 0) :
    ((l.filter q).map f).sum = (l.map f).sum := by
  induction l with
  | nil => rfl
  | cons a rest ih =>
    have h2 : ∀ x ∈ rest, q x = false → f x = 0 :=
      fun x hx => h x (List.mem_cons_of_mem a hx)
    by_cases hq : q a = true
    · rw [List.filter_cons_of_pos hq]
      simp only [List.map_cons, List.sum_cons, ih h2]
    · rw [List.filter_cons_of_neg hq]
      have hz : f a = 0 := h a (List.mem_cons_self a rest) (Bool.not_eq_true _ ▸ hq)
      simp only [List.map_cons, List.sum_cons, ih h2, hz, zero_add]

theorem itemsTotal_filter_keep (claims : List Claim) (items : List Item) (pid : String) :
    itemsTotal (claims.filter (fun c => items.any (fun it => it.id == c.item_id)))
        items pid
      = itemsTotal claims items pid := by
  rw [itemsTotal, itemsTotal, participantClaims, participantClaims]
  simp only [itemContribution_filter_keep]
  rw [List.filter_comm]
  apply sum_map_filter_eq
  intro c _ hfalse
  apply itemContribution_of_not_found
  apply List.find?_eq_none.mpr
  intro it hit
  have := List.any_eq_false.mp hfalse it hit
  simpa using this

/-- C10.  The claims update endpoint accepts arbitrary item ids without
validation: for every posted id list, whatever ids it contains, the call
succeeds (given bill, participant and a non-done status) and stores one
claim per posted id; and any claim whose item id is not an item of the
bill contributes exactly 0 to every participant's computed items_total,
because the totals only add contributions of ids found among the bill's
items. -/
theorem C10_unvalidated_item_ids (db : DB) (st pt : String) (ids : List String)
    (bill : Bill) (p : Participant)
    (hb : lookupBillByShare db st = some bill)
    (hp : lookupParticipant db bill.id pt = some p)
    (hnd : ¬ p.status = "done") :
    (∃ db2, update_claims db st pt ids = .ok (db2, ids.length)
      ∧ db2.claims.filter (fun c => c.participant_id == p.id)
          = ids.map (fun iid => { item_id := iid, participant_id := p.id : Claim }))
    ∧ (∀ iid, findItem (billItems db bill.id) iid = none →
        itemContribution db.claims (billItems db bill.id) iid = 0)
    ∧ (∀ cl : List Claim, ∀ pid : String,
        itemsTotal
            (cl.filter (fun c => (billItems db bill.id).any (fun it => it.id == c.item_id)))
            (billItems db bill.id) pid
          = itemsTotal cl (billItems db bill.id) pid) := by
  refine ⟨?_, fun iid h => itemContribution_of_not_found _ _ _ h,
    fun cl pid => itemsTotal_filter_keep cl _ pid⟩
  have hd : (p.status == "done") = false := by simp [hnd]
  refine ⟨{ db with claims := db.claims.filter (fun c => c.participant_id != p.id) ++ ids.map (fun iid => { item_id := iid, participant_id := p.id : Claim }) }, ?_, ?_⟩
  · simp only [update_claims, hb, hp, hd, Bool.false_eq_true, if_false]
  · show ((db.claims.filter (fun c => c.participant_id != p.id))
        ++ ids.map (fun iid => { item_id := iid, participant_id := p.id : Claim })).filter
          (fun c => c.participant_id == p.id)
      = ids.map (fun iid => { item_id := iid, participant_id := p.id : Claim })
    rw [List.filter_append]
    have h1 : (db.claims.filter (fun c => c.participant_id != p.id)).filter
        (fun c => c.participant_id == p.id) = [] := by
      rw [List.filter_filter]
      apply List.filter_eq_nil_iff.mpr
      intro c _
      by_cases hc : c.participant_id = p.id <;> simp [hc]
    have h2 : (ids.map (fun iid =>
          { item_id := iid, participant_id := p.id : Claim })).filter
        (fun c => c.participant_id == p.id)
        = ids.map (fun iid => { item_id := iid, participant_id := p.id : Claim }) := by
      rw [List.filter_map]
      congr 1
      apply List.filter_eq_self.mpr
      intro c _
      simp
    rw [h1, h2, List.nil_append]

/-- Store used by the C10 witness: an active bill with one real item and a
selecting participant. -/
def c10db : DB :=
  { bills := [{ id := "b1", creator_token := "ct", share_token := "s1", status := "active" }],
    items := [{ id := "i1", bill_id := "b1", name := "Pizza", price := 20 }],
    participants := [{ id := "p1", bill_id := "b1", participant_token := "pt",
                       name := none, status := "selecting" }],
    claims := [] }

/-- C10 witness: the theorem applied with a posted list holding an id that
is no item of the bill; lookups and the status hypothesis are evaluated. -/
theorem C10_unvalidated_item_ids_witness :
    lookupBillByShare c10db "s1"
      = some { id := "b1", creator_token := "ct", share_token := "s1", status := "active" }
    ∧ ¬ ("selecting" = "done")
    ∧ ((∃ db2, update_claims c10db "s1" "pt" ["zz"] = .ok (db2, (["zz"] : List String).length)
        ∧ db2.claims.filter (fun c => c.participant_id == "p1")
            = (["zz"] : List String).map
                (fun iid => { item_id := iid, participant_id := "p1" : Claim }))
      ∧ (∀ iid, findItem (billItems c10db "b1") iid = none →
          itemContribution c10db.claims (billItems c10db "b1") iid = 0)
      ∧ (∀ cl : List Claim, ∀ pid : String,
          itemsTotal
              (cl.filter (fun c => (billItems c10db "b1").any (fun it => it.id == c.item_id)))
              (billItems c10db "b1") pid
            = itemsTotal cl (billItems c10db "b1") pid)) :=
  ⟨rfl, by decide,
    C10_unvalidated_item_ids c10db "s1" "pt" ["zz"] _
      ⟨"p1", "b1", "pt", none, "selecting", false⟩ rfl rfl (by decide)⟩

/-! ## Claim C2: per-item allocation -/

theorem allocFor_eq_count_mul (claims : List Claim) (items : List Item) (pid iid : String) :
    allocFor claims items pid iid
      = (countPair claims pid iid : ℚ) * itemContribution claims items iid := by
  rw [allocFor, countPair, List.map_const', List.sum_replicate, nsmul_eq_mul]

theorem countPair_le_claimCount (claims : List Claim) (pid iid : String) :
    countPair claims pid iid ≤ claimCount claims iid := by
  rw [countPair, claimCount]
  have : claims.filter (fun c => c.participant_id == pid && c.item_id == iid)
      = (claims.filter (fun c => c.item_id == iid)).filter
          (fun c => c.participant_id == pid) := by
    rw [List.filter_filter]
  rw [this]
  exact List.length_filter_le _ _

theorem sum_map_add_nat {α : Type} (l : List α) (f g : α → ℕ) :
    (l.map (fun x => f x + g x)).sum = (l.map f).sum + (l.map g).sum := by
  induction l with
  | nil => rfl
  | cons a t ih =>
    simp only [List.map_cons, List.sum_cons, ih]
    omega

theorem sum_indicator_count (P : List String) (a : String) :
    (P.map (fun x => if a = x then (1 : ℕ) else 0)).sum = P.count a := by
  induction P with
  | nil => rfl
  | cons b Q ih =>
    by_cases hab : a = b
    · subst hab
      simp [List.count_cons, ih, Nat.add_comm]
    · simp [List.count_cons, hab, ih]

theorem countPair_cons (c : Claim) (rest : List Claim) (pid iid : String) :
    countPair (c :: rest) pid iid
      = (if c.participant_id = pid ∧ c.item_id = iid then 1 else 0)
        + countPair rest pid iid := by
  by_cases h1 : c.participant_id = pid
  · by_cases h2 : c.item_id = iid
    · simp [countPair, List.filter_cons, h1, h2, Nat.add_comm]
    · simp [countPair, List.filter_cons, h1, h2]
  · simp [countPair, List.filter_cons, h1]

theorem claimCount_cons (c : Claim) (rest : List Claim) (iid : String) :
    claimCount (c :: rest) iid
      = (if c.item_id = iid then 1 else 0) + claimCount rest iid := by
  by_cases h : c.item_id = iid <;>
    simp [claimCount, List.filter_cons, h, Nat.add_comm]

theorem countPair_partition (claims : List Claim) (iid : String) (P : List String)
    (hnd : P.Nodup) (hcov : ∀ c ∈ claims, c.item_id = iid → c.participant_id ∈ P) :
    (P.map (fun pid => countPair claims pid iid)).sum = claimCount claims iid := by
  induction claims with
  | nil => simp [countPair, claimCount]
  | cons c rest ih =>
    have hcov2 : ∀ x ∈ rest, x.item_id = iid → x.participant_id ∈ P :=
      fun x hx => hcov x (List.mem_cons_of_mem c hx)
    have hrest := ih hcov2
    have hmap : P.map (fun pid => countPair (c :: rest) pid iid)
        = P.map (fun pid => (if c.participant_id = pid ∧ c.item_id = iid then 1 else 0)
            + countPair rest pid iid) :=
      List.map_congr_left (fun pid _ => countPair_cons c rest pid iid)
    rw [hmap, claimCount_cons, sum_map_add_nat, hrest]
    congr 1
    by_cases hc : c.item_id = iid
    · have hone : P.map (fun pid =>
            if c.participant_id = pid ∧ c.item_id = iid then (1 : ℕ) else 0)
          = P.map (fun pid => if c.participant_id = pid then (1 : ℕ) else 0) :=
        List.map_congr_left (fun pid _ => by simp [hc])
      rw [hone, sum_indicator_count, if_pos hc]
      exact List.count_eq_one_of_mem hnd (hcov c (List.mem_cons_self c rest) hc)
    · have hzero : P.map (fun pid =>
            if c.participant_id = pid ∧ c.item_id = iid then (1 : ℕ) else 0)
          = P.map (fun _ => (0 : ℕ)) :=
        List.map_congr_left (fun pid _ => by simp [hc])
      rw [hzero, if_neg hc]
      simp

/-- C2.  For every item claimed by k greater than 0 participants, a
claimant holding exactly one claim row on the item is allocated exactly
price divided by k for that item; the sum over all claimants of their
allocations for the item equals the item's price (exactly, on the
unrounded internal values, hence within the stated output-rounding
tolerance); and an item with no claims contributes 0 to every
participant's allocation. -/
theorem C2_item_share_allocation (claims : List Claim) (items : List Item) (it : Item)
    (pid0 : String) (P : List String)
    (hfind : findItem items it.id = some it) :
    (countPair claims pid0 it.id = 1 →
        allocFor claims items pid0 it.id = it.price / (claimCount claims it.id : ℚ))
    ∧ (P.Nodup → (∀ c ∈ claims, c.item_id = it.id → c.participant_id ∈ P) →
        0 < claimCount claims it.id →
        (P.map (fun pid => allocFor claims items pid it.id)).sum = it.price)
    ∧ (∀ iid pid, claimCount claims iid = 0 → allocFor claims items pid iid = 0) := by
  refine ⟨?_, ?_, ?_⟩
  · intro h1
    have hk : 1 ≤ claimCount claims it.id := h1 ▸ countPair_le_claimCount claims pid0 it.id
    rw [allocFor_eq_count_mul, h1, itemContribution, hfind, Nat.max_eq_right hk]
    rw [Nat.cast_one, one_mul]
  · intro hnd hcov hk
    have hmap : P.map (fun pid => allocFor claims items pid it.id)
        = P.map (fun pid =>
            (countPair claims pid it.id : ℚ) * itemContribution claims items it.id) :=
      List.map_congr_left (fun pid _ => allocFor_eq_count_mul claims items pid it.id)
    rw [hmap, List.sum_map_mul_right]
    have hcast : (P.map (fun pid => (countPair claims pid it.id : ℚ))).sum
        = ((P.map (fun pid => countPair claims pid it.id)).sum : ℚ) := by
      rw [Nat.cast_list_sum, List.map_map]
      rfl
    rw [hcast, countPair_partition claims it.id P hnd hcov]
    rw [itemContribution, hfind, Nat.max_eq_right hk]
    have hne : (claimCount claims it.id : ℚ) ≠ 0 := by
      exact_mod_cast Nat.pos_iff_ne_zero.mp hk
    rw [mul_comm, div_mul_cancel₀ it.price hne]
  · intro iid pid h0
    have hzero : countPair claims pid iid = 0 :=
      Nat.le_zero.mp (h0 ▸ countPair_le_claimCount claims pid iid)
    rw [allocFor_eq_count_mul, hzero, Nat.cast_zero, zero_mul]

/-- Claims used by the C2 witness: one shared item claimed once each by
two participants. -/
def c2claims : List Claim :=
  [{ item_id := "i1", participant_id := "p1" },
   { item_id := "i1", participant_id := "p2" }]

/-- Items used by the C2 witness. -/
def c2items : List Item := [{ id := "i1", bill_id := "b1", name := "Pizza", price := 20 }]

/-- C2 witness: the theorem applied to a concrete shared item, every
hypothesis discharged by evaluation. -/
theorem C2_item_share_allocation_witness :
    findItem c2items "i1" = some { id := "i1", bill_id := "b1", name := "Pizza", price := 20 }
    ∧ ((countPair c2claims "p1" "i1" = 1 →
        allocFor c2claims c2items "p1" "i1"
          = (Item.mk "i1" "b1" "Pizza" 20).price / (claimCount c2claims "i1" : ℚ))
      ∧ ((["p1", "p2"] : List String).Nodup →
          (∀ c ∈ c2claims, c.item_id = "i1" → c.participant_id ∈ (["p1", "p2"] : List String)) →
          0 < claimCount c2claims "i1" →
          ((["p1", "p2"] : List String).map
              (fun pid => allocFor c2claims c2items pid "i1")).sum
            = (Item.mk "i1" "b1" "Pizza" 20).price)
      ∧ (∀ iid pid, claimCount c2claims iid = 0 → allocFor c2claims c2items pid iid = 0)) :=
  ⟨rfl, C2_item_share_allocation c2claims c2items
    { id := "i1", bill_id := "b1", name := "Pizza", price := 20 } "p1" ["p1", "p2"] rfl⟩

/-! ## Claim C1: even division of tax and tip -/

theorem eligibleCount_eq_doneCount (db : DB) (billId : String)
    (hinv : ∀ p ∈ db.participants, p.status = "done" → p.name.isSome) :
    eligibleCount db billId = (doneParticipants db billId).length := by
  rw [eligibleCount, doneParticipants]
  congr 1
  apply List.filter_congr
  intro p hp
  by_cases h1 : p.bill_id = billId
  · by_cases h2 : p.status = "done"
    · have h3 : p.name.isSome = true := hinv p hp h2
      simp [h1, h2, h3]
    · simp [h1, h2]
  · simp [h1]

/-- C1.  In the final results computation, tax and tip are each divided
evenly among the eligible participants (status done, non-null name): every
returned split carries tax_share tax over n and tip_share tip over n
(rounded at output), where n is the eligible count, absent tax or tip is
read as 0, and when n is 0 there is no division error and no splits are
returned.  The name-invariant hypothesis records that a participant only
reaches done status through the submission endpoint, which always stores a
(non-null) name string. -/
theorem C1_tax_tip_even_division (db : DB) (st : String) (bill : Bill)
    (r : FinalResultsResponse)
    (hb : lookupBillByShare db st = some bill)
    (hr : get_final_results db st = .ok r)
    (hinv : ∀ p ∈ db.participants, p.status = "done" → p.name.isSome) :
    (∀ s ∈ r.splits,
        s.tax_share = round2 (bill.tax.getD 0 / (eligibleCount db bill.id : ℚ))
        ∧ s.tip_share = round2 (bill.tip.getD 0 / (eligibleCount db bill.id : ℚ)))
    ∧ (eligibleCount db bill.id = 0 → r.splits = []) := by
  have hcnt := eligibleCount_eq_doneCount db bill.id hinv
  by_cases hs : bill.status = "complete"
  · simp only [get_final_results, hb] at hr
    rw [if_neg (by simp [hs])] at hr
    simp only [Except.ok.injEq] at hr
    have hsplits : r.splits = sortSplits
        ((doneParticipants db bill.id).filterMap
          (mkSplit db.claims (billItems db bill.id)
            (bill.tax.getD 0 / ((max 1 (doneParticipants db bill.id).length : ℕ) : ℚ))
            (bill.tip.getD 0 / ((max 1 (doneParticipants db bill.id).length : ℕ) : ℚ)))) := by
      rw [← hr]
    constructor
    · intro s hsmem
      rw [hsplits, mem_sortSplits, List.mem_filterMap] at hsmem
      obtain ⟨p, hpmem, hmk⟩ := hsmem
      rw [mkSplit] at hmk
      by_cases ht : pyTruthy p.name = true
      · rw [if_pos ht, Option.some.injEq] at hmk
        have hlen : 0 < (doneParticipants db bill.id).length :=
          List.length_pos.mpr (List.ne_nil_of_mem hpmem)
        have hmax : max 1 (doneParticipants db bill.id).length
            = (doneParticipants db bill.id).length := Nat.max_eq_right hlen
        subst hmk
        constructor
        · show round2 (bill.tax.getD 0 / ((max 1 (doneParticipants db bill.id).length : ℕ) : ℚ))
            = round2 (bill.tax.getD 0 / (eligibleCount db bill.id : ℚ))
          rw [hcnt, hmax]
        · show round2 (bill.tip.getD 0 / ((max 1 (doneParticipants db bill.id).length : ℕ) : ℚ))
            = round2 (bill.tip.getD 0 / (eligibleCount db bill.id : ℚ))
          rw [hcnt, hmax]
      · rw [if_neg ht] at hmk
        exact absurd hmk (by simp)
    · intro h0
      rw [hcnt] at h0
      have hnil : doneParticipants db bill.id = [] := List.length_eq_zero.mp h0
      rw [hsplits, hnil]
      rfl
  · exfalso
    simp [get_final_results, hb, hs] at hr

/-- Store used by the C1 witness: a complete bill with tax 3 and tip 5
and one done participant named a. -/
def c1db : DB :=
  { bills := [{ id := "b1", creator_token := "ct", share_token := "s1", status := "complete",
                tax := some 3, tip := some 5 }],
    items := [],
    participants := [{ id := "p1", bill_id := "b1", participant_token := "pt",
                       name := some "a", status := "done" }],
    claims := [] }

/-- The bill row of `c1db`. -/
def c1bill : Bill :=
  { id := "b1", creator_token := "ct", share_token := "s1", status := "complete",
    tax := some 3, tip := some 5 }

/-- Expected final-results response for `c1db`. -/
def c1res : FinalResultsResponse :=
  { status := "complete", subtotal := none, tax := some 3, tip := some 5,
    venmo_handle := none, zelle_handle := none, cashapp_handle := none,
    splits := [{ name := "a"
                 items_total := round2 0
                 tax_share := round2 ((3 : ℚ) / ((max 1 1 : ℕ) : ℚ))
                 tip_share := round2 ((5 : ℚ) / ((max 1 1 : ℕ) : ℚ))
                 final_total := round2 (0 + (3 : ℚ) / ((max 1 1 : ℕ) : ℚ)
                   + (5 : ℚ) / ((max 1 1 : ℕ) : ℚ)) }] }

/-- C1 witness: the theorem applied to the concrete store, with the
lookup, evaluation and name-invariant hypotheses discharged there. -/
theorem C1_tax_tip_even_division_witness :
    lookupBillByShare c1db "s1" = some c1bill
    ∧ get_final_results c1db "s1" = .ok c1res
    ∧ (∀ p ∈ c1db.participants, p.status = "done" → p.name.isSome)
    ∧ ((∀ s ∈ c1res.splits,
          s.tax_share = round2 (c1bill.tax.getD 0 / (eligibleCount c1db c1bill.id : ℚ))
          ∧ s.tip_share = round2 (c1bill.tip.getD 0 / (eligibleCount c1db c1bill.id : ℚ)))
      ∧ (eligibleCount c1db c1bill.id = 0 → c1res.splits = [])) :=
  ⟨rfl, rfl, by decide,
    C1_tax_tip_even_division c1db "s1" c1bill c1res rfl rfl (by decide)⟩

end BillSplit

